import Mathlib

/-!
Verification development for the protein sequence-analysis engine
(`protein_analysis.py`, class `ProteinAnalyzer`).

Sequences are shallowly embedded as `List Char`; Python floats are
embedded as `ℚ` (all scores and thresholds in the source are exact
decimal constants, so every arithmetic step is exact here); Python
dicts that only accumulate label/score pairs are embedded as
association lists in insertion order; fallible code (Python raising
`ZeroDivisionError`, or `try/except` blocks) is embedded with
`Except`/error constructors.
-/

set_option autoImplicit false

/-- Helper: a protein sequence as the list of its one-letter residues. -/
def seqOf (s : String) : List Char := s.toList

/-! ### Amino-acid property tables (`ProteinAnalyzer.__init__`) -/

/-- `self.hydrophobic = set("VILMFYW")`. -/
def hydrophobic : List Char := ['V', 'I', 'L', 'M', 'F', 'Y', 'W']

/-- `self.polar = set("STNQ")`. -/
def polar : List Char := ['S', 'T', 'N', 'Q']

/-- `self.charged = set("DEKR")`. -/
def charged : List Char := ['D', 'E', 'K', 'R']

/-- `self.helix_prone = set("MALEKR")`. -/
def helix_prone : List Char := ['M', 'A', 'L', 'E', 'K', 'R']

/-- `self.sheet_prone = set("VIVFY")` (the source string repeats `V`;
membership is unaffected). -/
def sheet_prone : List Char := ['V', 'I', 'V', 'F', 'Y']

/-- `self.coil_prone = set("GPNS")`. -/
def coil_prone : List Char := ['G', 'P', 'N', 'S']

/-- Python `sum(aa in cls for aa in s)`: the number of residues of `s`
belonging to the class `cls`. -/
def countIn (cls : List Char) (s : List Char) : Nat :=
  s.countP (fun a => decide (a ∈ cls))

/-- `sum(aa in self.hydrophobic for aa in sequence) / total_len` as computed
in `analyze_protein` and both fallbacks. On the empty sequence the Python
expression raises `ZeroDivisionError`; every caller in this development
guards `s.length = 0` before using this value, mirroring where the
exception fires in the source. -/
def hydrophobic_content (s : List Char) : ℚ :=
  (countIn hydrophobic s : ℚ) / (s.length : ℚ)

/-- `sum(aa in self.charged for aa in sequence) / total_len`. -/
def charged_content (s : List Char) : ℚ :=
  (countIn charged s : ℚ) / (s.length : ℚ)

/-- `sum(aa in self.polar for aa in sequence) / total_len`. -/
def polar_content (s : List Char) : ℚ :=
  (countIn polar s : ℚ) / (s.length : ℚ)

/-! ### Known-domain registry and domain detector (`predict_domains`) -/

/-- One entry of `self.known_domains`: dictionary key, optional display
name, exact pattern, description. -/
structure DomainInfo where
  key : String
  name : Option String
  pattern : List Char
  description : String
deriving DecidableEq

/-- `self.known_domains`, in dictionary insertion order. Only the insulin
entry carries a `"name"` field; `info.get("name", domain_type)` falls back
to the dictionary key for the other two. -/
def known_domains : List DomainInfo :=
  [ { key := "insulin", name := some "Insulin/IGF/Relaxin",
      pattern := seqOf "FVNQHLCGSHLVEAL",
      description := "Hormone involved in glucose regulation" },
    { key := "transmembrane", name := none,
      pattern := seqOf "LLLLLLFFFF",
      description := "Membrane-spanning region" },
    { key := "dna_binding", name := none,
      pattern := seqOf "KKRRH",
      description := "DNA-binding motif" } ]

/-- One element of the list returned by `predict_domains`: name, 1-based
inclusive start and end (`stop` here, since `end` is reserved in Lean),
score, description. -/
structure DomainHit where
  name : String
  start : Nat
  stop : Nat
  score : ℚ
  description : String
deriving DecidableEq, Repr

/-- Python `sequence.find(pattern)` (with `None` for `-1`): index of the
first occurrence of `pat` as a contiguous sublist of `s`. -/
def findSub (pat : List Char) : List Char → Option Nat
  | [] => if ([] : List Char).take pat.length = pat then some 0 else none
  | a :: t =>
    if (a :: t).take pat.length = pat then some 0
    else (findSub pat t).map (fun j => j + 1)

/-- `pat` occurs in `s` at position `j` (0-based). -/
def matchesAt (pat s : List Char) (j : Nat) : Prop :=
  (s.drop j).take pat.length = pat

instance (pat s : List Char) (j : Nat) : Decidable (matchesAt pat s j) := by
  unfold matchesAt; infer_instance

/-- Pass 1 of `predict_domains`: for each registry entry whose pattern
occurs in the sequence, one hit at the first occurrence, 1-based
`start = find + 1`, `end = start + len(pattern) - 1`, fixed score 95. -/
def knownDomainHits (s : List Char) : List DomainHit :=
  known_domains.filterMap (fun info =>
    (findSub info.pattern s).map (fun j =>
      { name := info.name.getD info.key,
        start := j + 1,
        stop := j + info.pattern.length,
        score := 95,
        description := info.description }))

/-- The hits one window starting at `i` contributes in pass 2 of
`predict_domains`: window of 10 residues, a "Transmembrane domain" hit when
at least 7 are hydrophobic, a "Charged domain" hit when at least 5 are
charged; the two conditions are tested independently. -/
def windowHitsAt (s : List Char) (i : Nat) : List DomainHit :=
  let window := (s.drop i).take 10
  let hydrophobic_count := countIn hydrophobic window
  let charged_count := countIn charged window
  (if hydrophobic_count ≥ 7 then
    [{ name := "Transmembrane domain", start := i + 1, stop := i + 10,
       score := (hydrophobic_count : ℚ) / 10 * 100,
       description := "Potential membrane-spanning region" }]
   else [])
  ++
  (if charged_count ≥ 5 then
    [{ name := "Charged domain", start := i + 1, stop := i + 10,
       score := (charged_count : ℚ) / 10 * 100,
       description := "Potential binding or interaction site" }]
   else [])

/-- Pass 2 of `predict_domains`: `for i in range(len(sequence) - 10 + 1)`.
Python's `len(sequence) - 10 + 1` is computed in `Int`; `s.length + 1 - 10`
is the same value under `Nat` truncation (both are empty ranges whenever
the length is below 10). -/
def slidingWindowHits (s : List Char) : List DomainHit :=
  (List.range (s.length + 1 - 10)).flatMap (fun i => windowHitsAt s i)

/-- Pass 3 of `predict_domains` (executed only when passes 1–2 found
nothing): one whole-sequence hit chosen by priority. The divisions are
those of the source (`/ len(sequence)`), which presuppose a non-empty
sequence; `analyze_protein` rejects the empty sequence before this
function can run. -/
def defaultDomain (s : List Char) : DomainHit :=
  if hydrophobic_content s > 2/5 then
    { name := "Hydrophobic region", start := 1, stop := s.length,
      score := hydrophobic_content s * 100,
      description := "Region rich in hydrophobic amino acids" }
  else if charged_content s > 3/10 then
    { name := "Charged region", start := 1, stop := s.length,
      score := charged_content s * 100,
      description := "Region rich in charged amino acids" }
  else
    { name := "Mixed region", start := 1, stop := s.length,
      score := 50,
      description := "Region with mixed amino acid properties" }

/-- `ProteinAnalyzer.predict_domains`. -/
def predict_domains (s : List Char) : List DomainHit :=
  let domains := knownDomainHits s ++ slidingWindowHits s
  if domains = [] then [defaultDomain s] else domains

/-! ### Remote-or-local function predictor
(`predict_protein_function`, `_predict_protein_function_fallback`,
`_process_interpro_results`) -/

/-- A `match["signature"]` object of an InterPro-like payload: optional
`entry_type` and `description`. -/
structure SignatureObj where
  entry_type : Option String
  description : Option String
deriving DecidableEq, Repr

/-- One element of the `matches` array: optional `signature` object and
optional `score` (`match.get('score', 0.0)`). -/
structure IPMatch where
  signature : Option SignatureObj
  score : Option ℚ
deriving DecidableEq, Repr

/-- A decoded JSON payload as `_process_interpro_results` reads it:
`matchesArr := none` models a payload without a `matches` key (the
source field name `matches` is reserved in Lean). -/
structure InterProPayload where
  matchesArr : Option (List IPMatch)
deriving DecidableEq, Repr

/-- The `processed` dictionary built by `_process_interpro_results` and by
`_predict_protein_function_fallback`: three category lists of
description/score pairs plus the `confidence_scores` dictionary
(an association list in insertion order). -/
structure Predictions where
  molecular_function : List (String × ℚ)
  biological_process : List (String × ℚ)
  cellular_component : List (String × ℚ)
  confidence_scores : List (String × ℚ)
deriving DecidableEq, Repr

/-- Result of the function predictor: either a `Predictions` dictionary or
the `{'status': 'error', 'message': ...}` dictionary that
`_predict_protein_function_fallback` returns when its body raises. -/
inductive FnPredResult where
  | ok (p : Predictions)
  | error (message : String)
deriving DecidableEq, Repr

/-- Python dict assignment `d[k] = v` on an association list: replace the
value in place if the key is present, append otherwise. -/
def updateAssoc : List (String × ℚ) → String → ℚ → List (String × ℚ)
  | [], k, v => [(k, v)]
  | (k', v') :: t, k, v =>
    if k' = k then (k, v) :: t else (k', v') :: updateAssoc t k v

/-- Processing of one element of the `matches` array inside
`_process_interpro_results`. Returns `none` for the one degenerate case in
which the Python code raises (an `entry_type` equal to the literal key
`"confidence_scores"` passes the `entry_type in processed` test and then
calls `.append` on a dict, an `AttributeError`); the caller treats `none`
as the exception propagating out. -/
def processMatch (acc : Predictions) (m : IPMatch) : Option Predictions :=
  match m.signature with
  | none => some acc
  | some sig =>
    match sig.entry_type with
    | none => some acc
    | some entry_type =>
      let desc := sig.description.getD ""
      let score := m.score.getD 0
      let upd : Option Predictions :=
        if entry_type = "molecular_function" then
          some { acc with molecular_function := acc.molecular_function ++ [(desc, score)] }
        else if entry_type = "biological_process" then
          some { acc with biological_process := acc.biological_process ++ [(desc, score)] }
        else if entry_type = "cellular_component" then
          some { acc with cellular_component := acc.cellular_component ++ [(desc, score)] }
        else if entry_type = "confidence_scores" then
          none
        else
          some acc
      upd.map (fun a =>
        { a with confidence_scores := updateAssoc a.confidence_scores desc score })

/-- `ProteinAnalyzer._process_interpro_results`. A payload without a
`matches` key yields the freshly initialised (empty) `processed`
dictionary; `none` models the method raising. -/
def process_interpro_results (raw : InterProPayload) : Option Predictions :=
  match raw.matchesArr with
  | none => some ⟨[], [], [], []⟩
  | some ms => ms.foldlM processMatch ⟨[], [], [], []⟩

/-- `ProteinAnalyzer._predict_protein_function_fallback`. On the empty
sequence the composition divisions raise `ZeroDivisionError`, which the
method's own `try/except` turns into the error dictionary. -/
def predict_protein_function_fallback (s : List Char) : FnPredResult :=
  if s.length = 0 then FnPredResult.error "division by zero"
  else
    let mf :=
      (if hydrophobic_content s > 2/5 then
        [("Membrane protein", hydrophobic_content s * 100)] else [])
      ++ (if charged_content s > 3/10 then
        [("DNA/RNA binding", charged_content s * 100)] else [])
      ++ (if polar_content s > 7/20 then
        [("Protein-protein interaction", polar_content s * 100)] else [])
    FnPredResult.ok ⟨mf, [], [], mf⟩

/-- Outcome of the outbound `aiohttp` POST in `predict_protein_function`:
either an HTTP response with a status and a body (`none` body models
`response.json()` raising on an undecodable payload), or a connection
error/timeout before any response. -/
inductive RemoteOutcome where
  | response (status : Nat) (body : Option InterProPayload)
  | failure
deriving DecidableEq, Repr

/-- `ProteinAnalyzer.predict_protein_function`: on status 200 decode and
process the payload, on any exception or non-200 status fall back to the
local heuristic. -/
def predict_protein_function (outcome : RemoteOutcome) (s : List Char) : FnPredResult :=
  match outcome with
  | RemoteOutcome.failure => predict_protein_function_fallback s
  | RemoteOutcome.response status body =>
    if status = 200 then
      match body with
      | none => predict_protein_function_fallback s
      | some payload =>
        match process_interpro_results payload with
        | some processed => FnPredResult.ok processed
        | none => predict_protein_function_fallback s
    else predict_protein_function_fallback s

/-! ### Aggregated analysis (`analyze_protein`) -/

/-- Python `max(a, b, c, key=lambda x: x[0])` over three pairs: the first
pair whose first component is maximal (`max` only replaces the current
best on a strictly greater key). -/
def maxByFirst (a b c : ℚ × String) : ℚ × String :=
  let best := if b.1 > a.1 then b else a
  if c.1 > best.1 then c else best

/-- The `function_scores` dictionary built inline by `analyze_protein`
(lines 240–268): thresholds 0.3 / 0.2 / 0.2, scores
`min((content - threshold) * 200, 100)` kept only when above 20, and a
forced single entry for the largest fraction when nothing qualified. -/
def function_scores_of (s : List Char) : List (String × ℚ) :=
  let s1 :=
    if hydrophobic_content s > 3/10 then
      let score := min ((hydrophobic_content s - 3/10) * 200) 100
      if score > 20 then [("Membrane protein", score)] else []
    else []
  let s2 :=
    if charged_content s > 1/5 then
      let score := min ((charged_content s - 1/5) * 200) 100
      if score > 20 then [("DNA/RNA binding", score)] else []
    else []
  let s3 :=
    if polar_content s > 1/5 then
      let score := min ((polar_content s - 1/5) * 200) 100
      if score > 20 then [("Protein-protein interaction", score)] else []
    else []
  let scores := s1 ++ s2 ++ s3
  if scores = [] then
    let m := maxByFirst (hydrophobic_content s, "Membrane protein")
      (charged_content s, "DNA/RNA binding")
      (polar_content s, "Protein-protein interaction")
    [(m.2, m.1 * 100)]
  else scores

/-- The secondary-structure block of `analyze_protein` (lines 274–305):
propensity counts, proportional redistribution of unassigned residues (or
the fixed 40/20/40 split when no residue matched any propensity set), then
normalisation to percentages. Returns (helix, sheet, coil). -/
def ss_percentages (s : List Char) : ℚ × ℚ × ℚ :=
  let n : ℚ := (s.length : ℚ)
  let helix_count : ℚ := (countIn helix_prone s : ℚ)
  let sheet_count : ℚ := (countIn sheet_prone s : ℚ)
  let coil_count : ℚ := (countIn coil_prone s : ℚ)
  let other_count : ℚ := n - (helix_count + sheet_count + coil_count)
  let adjusted : ℚ × ℚ × ℚ :=
    if other_count > 0 then
      let total_assigned := helix_count + sheet_count + coil_count
      if total_assigned > 0 then
        (helix_count + other_count * (helix_count / total_assigned),
         sheet_count + other_count * (sheet_count / total_assigned),
         coil_count + other_count * (coil_count / total_assigned))
      else (n * (2/5), n * (1/5), n * (2/5))
    else (helix_count, sheet_count, coil_count)
  let total := adjusted.1 + adjusted.2.1 + adjusted.2.2
  (adjusted.1 / total * 100, adjusted.2.1 / total * 100, adjusted.2.2 / total * 100)

/-- The error class of `analyze_protein` on invalid input:
`ZeroDivisionError` from the composition divisions. -/
inductive AnalysisError where
  | divideByZero
deriving DecidableEq, Repr

/-- The dictionary returned by `analyze_protein`, flattened: the three
sections with their confidences. -/
structure AnalysisResult where
  function_scores : List (String × ℚ)
  function_confidence : ℚ
  domains : List DomainHit
  domain_confidence : ℚ
  helix : ℚ
  sheet : ℚ
  coil : ℚ
  ss_confidence : ℚ
deriving DecidableEq, Repr

/-- `ProteinAnalyzer.analyze_protein`. The empty sequence raises
`ZeroDivisionError` at the very first composition division, before the
domain or structure computations are reached; the embedding returns that
error without consulting `predict_domains` or `ss_percentages`. -/
def analyze_protein (s : List Char) : Except AnalysisError AnalysisResult :=
  if s.length = 0 then Except.error AnalysisError.divideByZero
  else
    let domains := predict_domains s
    let p := ss_percentages s
    Except.ok
      { function_scores := function_scores_of s,
        function_confidence :=
          min (max (hydrophobic_content s) (max (charged_content s) (polar_content s)) * 100) 100,
        domains := domains,
        domain_confidence := if domains = [] then 50 else 90,
        helix := p.1,
        sheet := p.2.1,
        coil := p.2.2,
        ss_confidence := 70 }

/-! ### Windowed secondary-structure fallback
(`_predict_secondary_structure_fallback`) -/

/-- `'X' * pad + sequence + 'X' * pad` with `pad = 7 // 2 = 3`. -/
def paddedX (s : List Char) : List Char :=
  List.replicate 3 'X' ++ s ++ List.replicate 3 'X'

/-- The width-7 window centred on residue `j` of `s`:
`padded_seq[i-pad : i+pad+1]` with `i = j + pad`. -/
def windowAt (s : List Char) (j : Nat) : List Char :=
  ((paddedX s).drop j).take 7

/-- The three propensity fractions of the window centred on residue `j`:
counts divided by the window size 7. Returns (helix, sheet, coil). -/
def windowFracs (s : List Char) (j : Nat) : ℚ × ℚ × ℚ :=
  let w := windowAt s j
  ((countIn helix_prone w : ℚ) / 7,
   (countIn sheet_prone w : ℚ) / 7,
   (countIn coil_prone w : ℚ) / 7)

/-- `max(scores, key=scores.get)` over the dict
`{'H': helix, 'E': sheet, 'C': coil}`: Python's `max` walks the keys in
insertion order and replaces the current best only on a strictly greater
value, so the first key wins every tie. -/
def voteAt (s : List Char) (j : Nat) : Char :=
  let f := windowFracs s j
  if f.2.1 > f.1 then (if f.2.2 > f.2.1 then 'C' else 'E')
  else (if f.2.2 > f.1 then 'C' else 'H')

/-- `max(scores.values()) * 100`: the per-position confidence. -/
def confAt (s : List Char) (j : Nat) : ℚ :=
  let f := windowFracs s j
  max (max f.1 f.2.1) f.2.2 * 100

/-- The dictionary returned by `_predict_secondary_structure_fallback` on
success. -/
structure SSResult where
  secondary_structure : List Char
  confidence : List ℚ
  helix_percentage : ℚ
  sheet_percentage : ℚ
  coil_percentage : ℚ
deriving DecidableEq, Repr

/-- Result of `_predict_secondary_structure_fallback`: the success
dictionary, or the `{'status': 'error', ...}` dictionary produced by its
`try/except` when the body raises (`ZeroDivisionError` on the empty
sequence, whose loop runs zero times and divides by `len(structure) = 0`). -/
inductive SSOutcome where
  | ok (r : SSResult)
  | error (message : String)
deriving DecidableEq, Repr

/-- `ProteinAnalyzer._predict_secondary_structure_fallback`: one vote and
one confidence per residue position, then label counts over the whole
prediction string scaled to percentages. -/
def predict_secondary_structure_fallback (s : List Char) : SSOutcome :=
  if s.length = 0 then SSOutcome.error "division by zero"
  else
    let structurePred := (List.range s.length).map (voteAt s)
    let conf := (List.range s.length).map (confAt s)
    let total : ℚ := (structurePred.length : ℚ)
    SSOutcome.ok
      { secondary_structure := structurePred,
        confidence := conf,
        helix_percentage := (structurePred.count 'H' : ℚ) / total * 100,
        sheet_percentage := (structurePred.count 'E' : ℚ) / total * 100,
        coil_percentage := (structurePred.count 'C' : ℚ) / total * 100 }

/-! ### Spec-side definitions, written from the claims' words, to be
compared with the source translations above -/

/-- Projection: the `confidence_scores` component of a function-predictor
result, `none` when the result is the error dictionary. -/
def confScoresOf : FnPredResult → Option (List (String × ℚ))
  | FnPredResult.ok p => some p.confidence_scores
  | FnPredResult.error _ => none

/-- The local heuristic exactly as claim C1 words it: emit
"Membrane protein" when the hydrophobic fraction exceeds 0.3 with score
`min((hydrophobic - 0.3) * 200, 100)`, "DNA/RNA binding" when the charged
fraction exceeds 0.2, "Protein-protein interaction" when the polar
fraction exceeds 0.2, then keep only the entries whose score exceeds 20. -/
def claimedFallbackScores (s : List Char) : List (String × ℚ) :=
  ((if hydrophobic_content s > 3/10 then
      [("Membrane protein", min ((hydrophobic_content s - 3/10) * 200) 100)] else [])
   ++ (if charged_content s > 1/5 then
      [("DNA/RNA binding", min ((charged_content s - 1/5) * 200) 100)] else [])
   ++ (if polar_content s > 1/5 then
      [("Protein-protein interaction", min ((polar_content s - 1/5) * 200) 100)] else [])).filter
    (fun e => decide (e.2 > 20))

/-- What the remote-failure fallback of the source actually emits
(the amended claim C1): thresholds 0.4 / 0.3 / 0.35, each scored as the
bare fraction scaled to 100, with no minimum-score filter. -/
def actualFallbackScores (s : List Char) : List (String × ℚ) :=
  (if hydrophobic_content s > 2/5 then
    [("Membrane protein", hydrophobic_content s * 100)] else [])
  ++ (if charged_content s > 3/10 then
    [("DNA/RNA binding", charged_content s * 100)] else [])
  ++ (if polar_content s > 7/20 then
    [("Protein-protein interaction", polar_content s * 100)] else [])

/-- The remote outcomes that actually make `predict_protein_function` use
the local fallback: a connection error/timeout, a non-200 status, an
undecodable body, or a decodable body on which the processing step raises.
A decodable 200 payload that merely lacks a `matches` array is NOT among
them. -/
def remoteUnusable : RemoteOutcome → Bool
  | RemoteOutcome.failure => true
  | RemoteOutcome.response status body =>
    if status = 200 then
      match body with
      | none => true
      | some p => (process_interpro_results p).isNone
    else true

/-- A decodable JSON payload containing no `matches` array. -/
def noMatchesPayload : InterProPayload := { matchesArr := none }

/-- The sliding-window pass exactly as claim C7 words it: a fixed window
of 10 residues at stride 1 over every valid start position (those with the
full window inside the sequence), each window independently contributing a
"Transmembrane domain" hit exactly when its hydrophobic count is at least
7 and a "Charged domain" hit exactly when its charged count is at least 5,
with no deduplication of overlapping windows. -/
def windowPassSpec (s : List Char) : List DomainHit :=
  ((List.range s.length).filter (fun i => decide (i + 10 ≤ s.length))).flatMap (fun i =>
    let w := (s.drop i).take 10
    (if countIn hydrophobic w ≥ 7 then
      [{ name := "Transmembrane domain", start := i + 1, stop := i + 10,
         score := (countIn hydrophobic w : ℚ) / 10 * 100,
         description := "Potential membrane-spanning region" }]
     else [])
    ++
    (if countIn charged w ≥ 5 then
      [{ name := "Charged domain", start := i + 1, stop := i + 10,
         score := (countIn charged w : ℚ) / 10 * 100,
         description := "Potential binding or interaction site" }]
     else []))

/-- The per-position label exactly as claim C9 words it: the label with
the highest propensity fraction, ties broken by the fixed priority helix,
then sheet, then coil (the first key wins on an equal maximum). -/
def voteSpec (h e c : ℚ) : Char :=
  if h ≥ e ∧ h ≥ c then 'H' else if e ≥ c then 'E' else 'C'

/-! ### Helper lemmas -/

lemma length_pos_rat (s : List Char) (h : s ≠ []) : (0 : ℚ) < (s.length : ℚ) := by
  have := List.length_pos.mpr h
  exact_mod_cast this

lemma predict_domains_ne_nil (s : List Char) : predict_domains s ≠ [] := by
  simp only [predict_domains]
  split_ifs with h
  · simp
  · exact h

lemma analyze_protein_eq (s : List Char) (h : s ≠ []) :
    analyze_protein s = Except.ok
      { function_scores := function_scores_of s,
        function_confidence :=
          min (max (hydrophobic_content s) (max (charged_content s) (polar_content s)) * 100) 100,
        domains := predict_domains s,
        domain_confidence := if predict_domains s = [] then 50 else 90,
        helix := (ss_percentages s).1,
        sheet := (ss_percentages s).2.1,
        coil := (ss_percentages s).2.2,
        ss_confidence := 70 } := by
  have hl : s.length ≠ 0 := fun hc => h (List.length_eq_zero.mp hc)
  simp [analyze_protein, hl]

lemma count_partition (l : List Char) (h : ∀ x ∈ l, x = 'H' ∨ x = 'E' ∨ x = 'C') :
    l.count 'H' + l.count 'E' + l.count 'C' = l.length := by
  induction l with
  | nil => simp
  | cons a t ih =>
    have ht : ∀ x ∈ t, x = 'H' ∨ x = 'E' ∨ x = 'C' :=
      fun x hx => h x (List.mem_cons_of_mem a hx)
    have ha := h a (List.mem_cons_self a t)
    have hih := ih ht
    rcases ha with ha | ha | ha <;> subst ha
    · rw [List.count_cons_self, List.count_cons_of_ne (by decide : ('E' : Char) ≠ 'H'),
        List.count_cons_of_ne (by decide : ('C' : Char) ≠ 'H'), List.length_cons]
      omega
    · rw [List.count_cons_self, List.count_cons_of_ne (by decide : ('H' : Char) ≠ 'E'),
        List.count_cons_of_ne (by decide : ('C' : Char) ≠ 'E'), List.length_cons]
      omega
    · rw [List.count_cons_self, List.count_cons_of_ne (by decide : ('H' : Char) ≠ 'C'),
        List.count_cons_of_ne (by decide : ('E' : Char) ≠ 'C'), List.length_cons]
      omega

lemma filter_range_lt (n m : Nat) (h : m ≤ n) :
    (List.range n).filter (fun i => decide (i < m)) = List.range m := by
  induction n with
  | zero =>
    have : m = 0 := Nat.le_zero.mp h
    simp [this]
  | succ k ih =>
    rcases Nat.lt_or_ge m (k + 1) with hm | hm
    · have hmk : m ≤ k := Nat.lt_succ_iff.mp hm
      rw [List.range_succ, List.filter_append, ih hmk]
      have hk : ¬ k < m := Nat.not_lt.mpr hmk
      simp [hk]
    · have : m = k + 1 := Nat.le_antisymm h hm
      subst this
      apply List.filter_eq_self.mpr
      intro a ha
      simp only [List.mem_range] at ha
      simpa using ha

lemma range_filter_window (n : Nat) :
    (List.range n).filter (fun i => decide (i + 10 ≤ n)) = List.range (n + 1 - 10) := by
  have hm : n + 1 - 10 ≤ n := by omega
  rw [← filter_range_lt n (n + 1 - 10) hm]
  apply List.filter_congr
  intro a _
  simp only [decide_eq_decide]
  omega

lemma findSub_some (pat : List Char) :
    ∀ (s : List Char) (j : Nat), findSub pat s = some j →
      matchesAt pat s j ∧ ∀ k, k < j → ¬ matchesAt pat s k := by
  intro s
  induction s with
  | nil =>
    intro j h
    unfold findSub at h
    split at h
    · next hp =>
        obtain rfl : 0 = j := Option.some.inj h
        exact ⟨hp, fun k hk => absurd hk (Nat.not_lt_zero k)⟩
    · exact absurd h (by simp)
  | cons a t ih =>
    intro j h
    unfold findSub at h
    split at h
    · next hp =>
        obtain rfl : 0 = j := Option.some.inj h
        exact ⟨hp, fun k hk => absurd hk (Nat.not_lt_zero k)⟩
    · next hp =>
        rw [Option.map_eq_some'] at h
        obtain ⟨j', hfs, hj⟩ := h
        subst hj
        obtain ⟨hm, hmin⟩ := ih j' hfs
        refine ⟨by simpa [matchesAt] using hm, ?_⟩
        intro k hk
        cases k with
        | zero => simpa [matchesAt] using hp
        | succ k' =>
          intro hc
          exact hmin k' (Nat.lt_of_succ_lt_succ hk)
            (by simpa [matchesAt] using hc)

lemma findSub_none (pat : List Char) :
    ∀ (s : List Char), findSub pat s = none → ∀ j, ¬ matchesAt pat s j := by
  intro s
  induction s with
  | nil =>
    intro h j
    unfold findSub at h
    split at h
    · exact absurd h (by simp)
    · next hp =>
        intro hc
        exact hp (by simpa [matchesAt] using hc)
  | cons a t ih =>
    intro h j
    unfold findSub at h
    split at h
    · exact absurd h (by simp)
    · next hp =>
        rw [Option.map_eq_none'] at h
        cases j with
        | zero => intro hc; exact hp (by simpa [matchesAt] using hc)
        | succ k => intro hc; exact ih h k (by simpa [matchesAt] using hc)

lemma length_filterMap_eq {α β : Type} (f : α → Option β) (l : List α) :
    (l.filterMap f).length = (l.filter (fun a => (f a).isSome)).length := by
  induction l with
  | nil => rfl
  | cons a t ih =>
    cases hf : f a with
    | none => simp [List.filterMap_cons, hf, ih]
    | some b => simp [List.filterMap_cons, hf, ih]

lemma maxByFirst_fst (a b c : ℚ × String) :
    (maxByFirst a b c).1 = max a.1 (max b.1 c.1) := by
  simp only [maxByFirst]
  by_cases h1 : b.1 > a.1
  · simp only [if_pos h1]
    by_cases h2 : c.1 > b.1
    · simp only [if_pos h2]
      rw [max_eq_right h2.le, max_eq_right (h1.trans h2).le]
    · simp only [if_neg h2]
      rw [max_eq_left (not_lt.mp h2), max_eq_right h1.le]
  · simp only [if_neg h1]
    by_cases h2 : c.1 > a.1
    · simp only [if_pos h2]
      have hb : b.1 ≤ a.1 := not_lt.mp h1
      rw [max_eq_right (hb.trans h2.le), max_eq_right h2.le]
    · simp only [if_neg h2]
      have hmax : max b.1 c.1 ≤ a.1 := max_le (not_lt.mp h1) (not_lt.mp h2)
      rw [max_eq_left hmax]

lemma maxByFirst_mem (a b c : ℚ × String) :
    maxByFirst a b c = a ∨ maxByFirst a b c = b ∨ maxByFirst a b c = c := by
  simp only [maxByFirst]
  by_cases h1 : b.1 > a.1
  · simp only [if_pos h1]
    by_cases h2 : c.1 > b.1
    · simp only [if_pos h2]; right; right; trivial
    · simp only [if_neg h2]; right; left; trivial
  · simp only [if_neg h1]
    by_cases h2 : c.1 > a.1
    · simp only [if_pos h2]; right; right; trivial
    · simp only [if_neg h2]; left; trivial

lemma normalize_sum (x y z : ℚ) (hx : 0 ≤ x) (hy : 0 ≤ y) (hz : 0 ≤ z)
    (hpos : 0 < x + y + z) :
    0 ≤ x / (x + y + z) * 100 ∧ 0 ≤ y / (x + y + z) * 100 ∧
      0 ≤ z / (x + y + z) * 100 ∧
      x / (x + y + z) * 100 + y / (x + y + z) * 100 + z / (x + y + z) * 100 = 100 := by
  have h0 : x + y + z ≠ 0 := ne_of_gt hpos
  refine ⟨by positivity, by positivity, by positivity, ?_⟩
  field_simp
  ring

lemma ss_percentages_spec (s : List Char) (h : s ≠ []) :
    0 ≤ (ss_percentages s).1 ∧ 0 ≤ (ss_percentages s).2.1 ∧
      0 ≤ (ss_percentages s).2.2 ∧
      (ss_percentages s).1 + (ss_percentages s).2.1 + (ss_percentages s).2.2 = 100 := by
  have hn : (0 : ℚ) < (s.length : ℚ) := length_pos_rat s h
  have hA : (0 : ℚ) ≤ (countIn helix_prone s : ℚ) := by positivity
  have hB : (0 : ℚ) ≤ (countIn sheet_prone s : ℚ) := by positivity
  have hC : (0 : ℚ) ≤ (countIn coil_prone s : ℚ) := by positivity
  simp only [ss_percentages]
  set A := (countIn helix_prone s : ℚ) with hAdef
  set B := (countIn sheet_prone s : ℚ) with hBdef
  set C := (countIn coil_prone s : ℚ) with hCdef
  set n := (s.length : ℚ) with hndef
  split_ifs with h1 h2
  · -- unassigned residues exist and some propensity count is positive
    have hT : (0 : ℚ) < A + B + C := h2
    have ho : (0 : ℚ) < n - (A + B + C) := h1
    have hx : 0 ≤ A + (n - (A + B + C)) * (A / (A + B + C)) :=
      add_nonneg hA (mul_nonneg ho.le (div_nonneg hA hT.le))
    have hy : 0 ≤ B + (n - (A + B + C)) * (B / (A + B + C)) :=
      add_nonneg hB (mul_nonneg ho.le (div_nonneg hB hT.le))
    have hz : 0 ≤ C + (n - (A + B + C)) * (C / (A + B + C)) :=
      add_nonneg hC (mul_nonneg ho.le (div_nonneg hC hT.le))
    have hsum : (A + (n - (A + B + C)) * (A / (A + B + C)))
        + (B + (n - (A + B + C)) * (B / (A + B + C)))
        + (C + (n - (A + B + C)) * (C / (A + B + C))) = n := by
      field_simp
      ring
    have hpos : 0 < (A + (n - (A + B + C)) * (A / (A + B + C)))
        + (B + (n - (A + B + C)) * (B / (A + B + C)))
        + (C + (n - (A + B + C)) * (C / (A + B + C))) := by
      rw [hsum]; exact hn
    exact normalize_sum _ _ _ hx hy hz hpos
  · -- unassigned residues exist but no propensity count is positive
    have hx : 0 ≤ n * (2/5 : ℚ) := by positivity
    have hy : 0 ≤ n * (1/5 : ℚ) := by positivity
    have hpos : 0 < n * (2/5 : ℚ) + n * (1/5 : ℚ) + n * (2/5 : ℚ) := by
      nlinarith
    exact normalize_sum _ _ _ hx hy hx hpos
  · -- every residue matched some propensity set
    have hT : (0 : ℚ) < A + B + C := by
      have : ¬ n - (A + B + C) > 0 := h1
      linarith [not_lt.mp this]
    exact normalize_sum _ _ _ hA hB hC hT

lemma vote_mem (s : List Char) (j : Nat) :
    voteAt s j = 'H' ∨ voteAt s j = 'E' ∨ voteAt s j = 'C' := by
  simp only [voteAt]
  split_ifs <;>
    first
      | (left; rfl)
      | (right; left; rfl)
      | (right; right; rfl)

lemma pythonMax_eq_priority (h e c : ℚ) :
    (if e > h then (if c > e then 'C' else 'E') else (if c > h then 'C' else 'H'))
      = voteSpec h e c := by
  unfold voteSpec
  rcases le_or_lt e h with he | he
  · rcases le_or_lt c h with hc | hc
    · rw [if_neg (not_lt.mpr he), if_neg (not_lt.mpr hc), if_pos ⟨he, hc⟩]
    · rw [if_neg (not_lt.mpr he), if_pos hc,
        if_neg (fun hh : h ≥ e ∧ h ≥ c => absurd hc (not_lt.mpr hh.2)),
        if_neg (not_le.mpr (lt_of_le_of_lt he hc))]
  · rcases le_or_lt c e with hc | hc
    · rw [if_pos he, if_neg (not_lt.mpr hc),
        if_neg (fun hh : h ≥ e ∧ h ≥ c => absurd he (not_lt.mpr hh.1)), if_pos hc]
    · rw [if_pos he, if_pos hc,
        if_neg (fun hh : h ≥ e ∧ h ≥ c => absurd he (not_lt.mpr hh.1)),
        if_neg (not_le.mpr hc)]

lemma voteAt_eq_spec (s : List Char) (j : Nat) :
    voteAt s j = voteSpec (windowFracs s j).1 (windowFracs s j).2.1 (windowFracs s j).2.2 := by
  simp only [voteAt]
  exact pythonMax_eq_priority _ _ _

lemma filter_gate (c : Prop) [Decidable c] (x : String × ℚ) :
    ((if c then [x] else []).filter (fun e => decide (e.2 > 20)))
      = (if c then (if x.2 > 20 then [x] else []) else []) := by
  split_ifs with h1 h2 <;> simp_all

lemma claimedFallbackScores_eq (s : List Char) :
    claimedFallbackScores s =
      (if hydrophobic_content s > 3/10 then
        (if min ((hydrophobic_content s - 3/10) * 200) 100 > 20 then
          [("Membrane protein", min ((hydrophobic_content s - 3/10) * 200) 100)] else [])
       else [])
      ++ (if charged_content s > 1/5 then
        (if min ((charged_content s - 1/5) * 200) 100 > 20 then
          [("DNA/RNA binding", min ((charged_content s - 1/5) * 200) 100)] else [])
       else [])
      ++ (if polar_content s > 1/5 then
        (if min ((polar_content s - 1/5) * 200) 100 > 20 then
          [("Protein-protein interaction", min ((polar_content s - 1/5) * 200) 100)] else [])
       else []) := by
  unfold claimedFallbackScores
  rw [List.filter_append, List.filter_append, filter_gate, filter_gate, filter_gate]

lemma function_scores_of_eq (s : List Char) :
    function_scores_of s =
      (if claimedFallbackScores s = [] then
        [((maxByFirst (hydrophobic_content s, "Membrane protein")
            (charged_content s, "DNA/RNA binding")
            (polar_content s, "Protein-protein interaction")).2,
          (maxByFirst (hydrophobic_content s, "Membrane protein")
            (charged_content s, "DNA/RNA binding")
            (polar_content s, "Protein-protein interaction")).1 * 100)]
       else claimedFallbackScores s) := by
  rw [claimedFallbackScores_eq]
  simp only [function_scores_of]

lemma function_scores_of_ne_nil (s : List Char) : function_scores_of s ≠ [] := by
  rw [function_scores_of_eq]
  split_ifs with h
  · simp
  · exact h

lemma fallback_eq (s : List Char) (h : s ≠ []) :
    predict_protein_function_fallback s =
      FnPredResult.ok ⟨actualFallbackScores s, [], [], actualFallbackScores s⟩ := by
  have hl : s.length ≠ 0 := fun hc => h (List.length_eq_zero.mp hc)
  simp only [predict_protein_function_fallback, if_neg hl]
  rfl

lemma contents_vg : hydrophobic_content (seqOf "VVVVVGGGGG") = 1/2
    ∧ charged_content (seqOf "VVVVVGGGGG") = 0
    ∧ polar_content (seqOf "VVVVVGGGGG") = 0 := by
  have h1 : countIn hydrophobic (seqOf "VVVVVGGGGG") = 5 := by decide
  have h2 : countIn charged (seqOf "VVVVVGGGGG") = 0 := by decide
  have h3 : countIn polar (seqOf "VVVVVGGGGG") = 0 := by decide
  have hl : (seqOf "VVVVVGGGGG").length = 10 := by decide
  unfold hydrophobic_content charged_content polar_content
  rw [h1, h2, h3, hl]
  norm_num

lemma contents_gggg : hydrophobic_content (seqOf "GGGG") = 0
    ∧ charged_content (seqOf "GGGG") = 0 := by
  have h1 : countIn hydrophobic (seqOf "GGGG") = 0 := by decide
  have h2 : countIn charged (seqOf "GGGG") = 0 := by decide
  have hl : (seqOf "GGGG").length = 4 := by decide
  unfold hydrophobic_content charged_content
  rw [h1, h2, hl]
  norm_num

lemma claimed_vg :
    claimedFallbackScores (seqOf "VVVVVGGGGG") = [("Membrane protein", 40)] := by
  obtain ⟨hh, hc, hp⟩ := contents_vg
  rw [claimedFallbackScores_eq, hh, hc, hp]
  norm_num

lemma actual_vg :
    actualFallbackScores (seqOf "VVVVVGGGGG") = [("Membrane protein", 50)] := by
  obtain ⟨hh, hc, hp⟩ := contents_vg
  unfold actualFallbackScores
  rw [hh, hc, hp]
  norm_num

/-! ### Claim theorems -/

/-- C1, counterexample to the claim as stated: for the concrete sequence
"VVVVVGGGGG" (hydrophobic fraction 1/2, charged and polar fractions 0)
the remote-failure fallback reports "Membrane protein" with score 50
(the bare fraction scaled to 100, threshold 0.4), not the claimed
min((1/2 − 0.3) × 200, 100) = 40 computed with threshold 0.3 and the
above-20 filter. -/
theorem C1_counterexample :
    confScoresOf (predict_protein_function RemoteOutcome.failure (seqOf "VVVVVGGGGG"))
      ≠ some (claimedFallbackScores (seqOf "VVVVVGGGGG")) := by
  have hpred : predict_protein_function RemoteOutcome.failure (seqOf "VVVVVGGGGG")
      = FnPredResult.ok ⟨actualFallbackScores (seqOf "VVVVVGGGGG"), [], [],
          actualFallbackScores (seqOf "VVVVVGGGGG")⟩ :=
    fallback_eq _ (by decide)
  rw [hpred, claimed_vg]
  show some (actualFallbackScores (seqOf "VVVVVGGGGG")) ≠ _
  rw [actual_vg]
  simp only [ne_eq, Option.some.injEq, List.cons.injEq, Prod.mk.injEq]
  intro hcontra
  exact absurd hcontra.1.2 (by norm_num)

/-- C1 (amended): when the remote prediction call fails, the function
predictor's local heuristic emits "Membrane protein" scored hydrophobic
fraction × 100 when that fraction exceeds 0.4, "DNA/RNA binding" scored
charged fraction × 100 when that fraction exceeds 0.3, and
"Protein-protein interaction" scored polar fraction × 100 when that
fraction exceeds 0.35, with no minimum-score filter; the thresholds
0.3/0.2/0.2 with scores min((fraction − threshold) × 200, 100) kept only
above 20, as the claim words them, are instead computed by the inline
heuristic of `analyze_protein`, independently of the remote call. -/
theorem C1_amended_fallback (s : List Char) (h : s ≠ []) :
    predict_protein_function RemoteOutcome.failure s =
      FnPredResult.ok ⟨actualFallbackScores s, [], [], actualFallbackScores s⟩
    ∧ (claimedFallbackScores s ≠ [] → function_scores_of s = claimedFallbackScores s) := by
  refine ⟨fallback_eq s h, ?_⟩
  intro hne
  rw [function_scores_of_eq, if_neg hne]

/-- Witness for `C1_amended_fallback` at the sequence "VVVVVGGGGG". -/
theorem C1_amended_fallback_witness :
    predict_protein_function RemoteOutcome.failure (seqOf "VVVVVGGGGG") =
      FnPredResult.ok ⟨actualFallbackScores (seqOf "VVVVVGGGGG"), [], [],
        actualFallbackScores (seqOf "VVVVVGGGGG")⟩
    ∧ (claimedFallbackScores (seqOf "VVVVVGGGGG") ≠ [] →
        function_scores_of (seqOf "VVVVVGGGGG") = claimedFallbackScores (seqOf "VVVVVGGGGG")) :=
  C1_amended_fallback (seqOf "VVVVVGGGGG") (by decide)

/-- C2, counterexample to the claim as stated: a 200 response whose
decodable payload lacks a `matches` array is processed into an empty
prediction instead of triggering the local fallback, so for "VVVVVGGGGG"
the predictor's output differs from the local-heuristic computation. -/
theorem C2_counterexample :
    predict_protein_function (RemoteOutcome.response 200 (some noMatchesPayload))
        (seqOf "VVVVVGGGGG")
      ≠ predict_protein_function_fallback (seqOf "VVVVVGGGGG") := by
  have h1 : predict_protein_function (RemoteOutcome.response 200 (some noMatchesPayload))
      (seqOf "VVVVVGGGGG") = FnPredResult.ok ⟨[], [], [], []⟩ := rfl
  have h2 : predict_protein_function_fallback (seqOf "VVVVVGGGGG")
      = FnPredResult.ok ⟨[("Membrane protein", 50)], [], [], [("Membrane protein", 50)]⟩ := by
    rw [fallback_eq _ (by decide), actual_vg]
  rw [h1, h2]
  simp

/-- C2 (amended): every remote outcome the code treats as unusable — a
connection error or timeout, a non-200 status, an undecodable body, or a
body whose processing raises — makes the predictor return exactly the
local fallback computation for that sequence, with no error propagated to
the caller (the predictor is a total function into `FnPredResult`); a
decodable 200 payload without a `matches` array is instead processed into
an empty prediction, not the fallback. -/
theorem C2_amended_fallback_path (s : List Char) (o : RemoteOutcome)
    (h : remoteUnusable o = true) :
    predict_protein_function o s = predict_protein_function_fallback s := by
  cases o with
  | failure => rfl
  | response status body =>
    by_cases hst : status = 200
    · subst hst
      cases body with
      | none => rfl
      | some p =>
        simp only [remoteUnusable, if_pos, Option.isNone_iff_eq_none] at h
        simp [predict_protein_function, h]
    · simp [predict_protein_function, hst]

/-- Witness for `C2_amended_fallback_path` at a 500 response. -/
theorem C2_amended_fallback_path_witness :
    predict_protein_function (RemoteOutcome.response 500 none) (seqOf "GG")
      = predict_protein_function_fallback (seqOf "GG") :=
  C2_amended_fallback_path (seqOf "GG") (RemoteOutcome.response 500 none) (by decide)

/-- C5: for every non-empty sequence the domain detector returns a
non-empty hit list; the fallback pass runs exactly when the exact-pattern
and sliding-window passes produced zero hits, and then yields exactly one
whole-sequence hit chosen by priority: hydrophobic content > 0.4 gives
"Hydrophobic region" scored content × 100, else charged content > 0.3
gives "Charged region" scored content × 100, else "Mixed region" with
fixed score 50. -/
theorem C5_domains_nonempty_fallback (s : List Char) (_h : s ≠ []) :
    predict_domains s ≠ []
    ∧ (knownDomainHits s ++ slidingWindowHits s ≠ [] →
        predict_domains s = knownDomainHits s ++ slidingWindowHits s)
    ∧ (knownDomainHits s ++ slidingWindowHits s = [] →
        predict_domains s =
          [ if hydrophobic_content s > 2/5 then
              { name := "Hydrophobic region", start := 1, stop := s.length,
                score := hydrophobic_content s * 100,
                description := "Region rich in hydrophobic amino acids" }
            else if charged_content s > 3/10 then
              { name := "Charged region", start := 1, stop := s.length,
                score := charged_content s * 100,
                description := "Region rich in charged amino acids" }
            else
              { name := "Mixed region", start := 1, stop := s.length,
                score := 50,
                description := "Region with mixed amino acid properties" } ]) := by
  refine ⟨predict_domains_ne_nil s, ?_, ?_⟩
  · intro hne
    simp only [predict_domains]
    rw [if_neg hne]
  · intro heq
    simp only [predict_domains]
    rw [if_pos heq]
    rfl

/-- Witness for `C5_domains_nonempty_fallback` at the sequence "GGGG"
(no pattern hit, too short for a window, mixed composition). -/
theorem C5_domains_nonempty_fallback_witness :
    predict_domains (seqOf "GGGG") ≠ []
    ∧ predict_domains (seqOf "GGGG") =
        [{ name := "Mixed region", start := 1, stop := 4, score := 50,
           description := "Region with mixed amino acid properties" }] := by
  have h := C5_domains_nonempty_fallback (seqOf "GGGG") (by decide)
  refine ⟨h.1, ?_⟩
  rw [h.2.2 (by decide)]
  obtain ⟨hh, hc⟩ := contents_gggg
  rw [hh, hc, (by decide : (seqOf "GGGG").length = 4)]
  norm_num

/-- C6: the empty-string input makes `analyze_protein` fail with the
division-by-zero-class error, raised by the composition division before
the domain or secondary-structure computations are reached (the embedding
returns the error without consulting `predict_domains` or
`ss_percentages`). -/
theorem C6_empty_sequence_error :
    analyze_protein (seqOf "") = Except.error AnalysisError.divideByZero := by
  rfl

/-- C7: the sliding-window pass equals, for every sequence, the
claim-worded pass over every valid start position — fixed window of 10
residues at stride 1, a "Transmembrane domain" hit exactly when the
window's hydrophobic count is ≥ 7 (scored fraction × 100), a
"Charged domain" hit exactly when its charged count is ≥ 5 (scored
fraction × 100), the two thresholds independent and overlapping hits
never merged — and sequences shorter than 10 residues produce no window
hits at all. -/
theorem C7_sliding_window (s : List Char) :
    slidingWindowHits s = windowPassSpec s
    ∧ (s.length < 10 → slidingWindowHits s = []) := by
  constructor
  · unfold slidingWindowHits windowPassSpec
    rw [range_filter_window]
    simp only [windowHitsAt]
  · intro hlen
    have h0 : s.length + 1 - 10 = 0 := by omega
    simp [slidingWindowHits, h0]

/-- Witness for `C7_sliding_window` at the short sequence "GGGG". -/
theorem C7_sliding_window_witness :
    slidingWindowHits (seqOf "GGGG") = windowPassSpec (seqOf "GGGG")
    ∧ slidingWindowHits (seqOf "GGGG") = [] :=
  ⟨(C7_sliding_window (seqOf "GGGG")).1,
   (C7_sliding_window (seqOf "GGGG")).2 (by decide)⟩

/-- C10: for every non-empty sequence the aggregated result reports
domain confidence exactly 90 and secondary-structure confidence exactly
70: the domain list is never empty, so the 50 branch of the
domain-confidence expression is unreachable, and the structure confidence
is the literal constant 70. -/
theorem C10_constant_confidences (s : List Char) (h : s ≠ []) :
    ∃ r, analyze_protein s = Except.ok r
      ∧ r.domain_confidence = 90 ∧ r.ss_confidence = 70 := by
  refine ⟨_, analyze_protein_eq s h, ?_, rfl⟩
  show (if predict_domains s = [] then (50 : ℚ) else 90) = 90
  rw [if_neg (predict_domains_ne_nil s)]

/-- Witness for `C10_constant_confidences` at the sequence "GG". -/
theorem C10_constant_confidences_witness :
    (analyze_protein (seqOf "GG")).map (fun r => (r.domain_confidence, r.ss_confidence))
      = Except.ok (90, 70) := by
  obtain ⟨r, hr, h1, h2⟩ := C10_constant_confidences (seqOf "GG") (by decide)
  rw [hr]
  simp [Except.map, h1, h2]

/-- C3: for every non-empty sequence the aggregator's local
function-prediction heuristic yields a non-empty mapping; when none of
the three thresholds (hydrophobic > 0.3, charged > 0.2, polar > 0.2) is
met it contains exactly one entry, labelled for a fraction that attains
the maximum of the hydrophobic, charged and polar fractions and scored as
that maximal fraction × 100. -/
theorem C3_forced_function_entry (s : List Char) (h : s ≠ []) :
    ∃ r, analyze_protein s = Except.ok r ∧ r.function_scores ≠ []
      ∧ ((¬ hydrophobic_content s > 3/10 ∧ ¬ charged_content s > 1/5
            ∧ ¬ polar_content s > 1/5) →
          ∃ lbl, r.function_scores =
              [(lbl, max (hydrophobic_content s)
                  (max (charged_content s) (polar_content s)) * 100)]
            ∧ ((lbl = "Membrane protein" ∧ hydrophobic_content s
                  = max (hydrophobic_content s) (max (charged_content s) (polar_content s)))
               ∨ (lbl = "DNA/RNA binding" ∧ charged_content s
                  = max (hydrophobic_content s) (max (charged_content s) (polar_content s)))
               ∨ (lbl = "Protein-protein interaction" ∧ polar_content s
                  = max (hydrophobic_content s) (max (charged_content s) (polar_content s))))) := by
  refine ⟨_, analyze_protein_eq s h, function_scores_of_ne_nil s, ?_⟩
  rintro ⟨h1, h2, h3⟩
  have hempty : claimedFallbackScores s = [] := by
    rw [claimedFallbackScores_eq, if_neg h1, if_neg h2, if_neg h3]
    rfl
  have hfst := maxByFirst_fst (hydrophobic_content s, "Membrane protein")
    (charged_content s, "DNA/RNA binding") (polar_content s, "Protein-protein interaction")
  have hmem := maxByFirst_mem (hydrophobic_content s, "Membrane protein")
    (charged_content s, "DNA/RNA binding") (polar_content s, "Protein-protein interaction")
  refine ⟨(maxByFirst (hydrophobic_content s, "Membrane protein")
    (charged_content s, "DNA/RNA binding") (polar_content s, "Protein-protein interaction")).2,
    ?_, ?_⟩
  · show function_scores_of s = _
    rw [function_scores_of_eq, if_pos hempty, hfst]
  · rcases hmem with hm | hm | hm
    · left
      exact ⟨by rw [hm], by rw [hm] at hfst; exact hfst.symm ▸ rfl⟩
    · right; left
      exact ⟨by rw [hm], by rw [hm] at hfst; exact hfst.symm ▸ rfl⟩
    · right; right
      exact ⟨by rw [hm], by rw [hm] at hfst; exact hfst.symm ▸ rfl⟩

/-- Witness for `C3_forced_function_entry` at "SGGGGGGGGG"
(one polar residue in ten; no threshold met, polar fraction is the
strict maximum). -/
theorem C3_forced_function_entry_witness :
    (analyze_protein (seqOf "SGGGGGGGGG")).map (fun r => r.function_scores)
      = Except.ok [("Protein-protein interaction", 10)] := by
  obtain ⟨r, hr, _, hforced⟩ := C3_forced_function_entry (seqOf "SGGGGGGGGG") (by decide)
  have hh : hydrophobic_content (seqOf "SGGGGGGGGG") = 0 := by
    unfold hydrophobic_content
    rw [(by decide : countIn hydrophobic (seqOf "SGGGGGGGGG") = 0),
      (by decide : (seqOf "SGGGGGGGGG").length = 10)]
    norm_num
  have hc : charged_content (seqOf "SGGGGGGGGG") = 0 := by
    unfold charged_content
    rw [(by decide : countIn charged (seqOf "SGGGGGGGGG") = 0),
      (by decide : (seqOf "SGGGGGGGGG").length = 10)]
    norm_num
  have hp : polar_content (seqOf "SGGGGGGGGG") = 1/10 := by
    unfold polar_content
    rw [(by decide : countIn polar (seqOf "SGGGGGGGGG") = 1),
      (by decide : (seqOf "SGGGGGGGGG").length = 10)]
    norm_num
  obtain ⟨lbl, hl, hdisj⟩ := hforced
    ⟨by rw [hh]; norm_num, by rw [hc]; norm_num, by rw [hp]; norm_num⟩
  have hmax : max (hydrophobic_content (seqOf "SGGGGGGGGG"))
      (max (charged_content (seqOf "SGGGGGGGGG")) (polar_content (seqOf "SGGGGGGGGG")))
      = 1/10 := by
    rw [hh, hc, hp]
    norm_num
  have hlbl : lbl = "Protein-protein interaction" := by
    rcases hdisj with ⟨_, hq⟩ | ⟨_, hq⟩ | ⟨hq, _⟩
    · rw [hmax, hh] at hq
      norm_num at hq
    · rw [hmax, hc] at hq
      norm_num at hq
    · exact hq
  rw [hr]
  simp only [Except.map]
  rw [hl, hlbl, hmax]
  norm_num

/-- C4: for every non-empty sequence, under both secondary-structure
strategies — the global proportional redistribution inside
`analyze_protein` and the windowed per-position voting of
`_predict_secondary_structure_fallback` — the three reported
helix/sheet/coil percentages are non-negative and sum exactly to 100
(so, a fortiori, to 100 within any floating-point tolerance). -/
theorem C4_structure_percentages (s : List Char) (h : s ≠ []) :
    (∃ r, analyze_protein s = Except.ok r ∧ 0 ≤ r.helix ∧ 0 ≤ r.sheet ∧ 0 ≤ r.coil
       ∧ r.helix + r.sheet + r.coil = 100)
    ∧ (∃ t, predict_secondary_structure_fallback s = SSOutcome.ok t
       ∧ 0 ≤ t.helix_percentage ∧ 0 ≤ t.sheet_percentage ∧ 0 ≤ t.coil_percentage
       ∧ t.helix_percentage + t.sheet_percentage + t.coil_percentage = 100) := by
  constructor
  · obtain ⟨h1, h2, h3, h4⟩ := ss_percentages_spec s h
    exact ⟨_, analyze_protein_eq s h, h1, h2, h3, h4⟩
  · have hl : s.length ≠ 0 := fun hc => h (List.length_eq_zero.mp hc)
    simp only [predict_secondary_structure_fallback, if_neg hl]
    set L := (List.range s.length).map (voteAt s) with hL
    have hvotes : ∀ x ∈ L, x = 'H' ∨ x = 'E' ∨ x = 'C' := by
      intro x hx
      rw [hL] at hx
      obtain ⟨j, _, rfl⟩ := List.mem_map.mp hx
      exact vote_mem s j
    have hcount := count_partition L hvotes
    have hLlen : L.length = s.length := by
      rw [hL, List.length_map, List.length_range]
    have hT : (0 : ℚ) < (L.length : ℚ) := by
      rw [hLlen]
      exact length_pos_rat s h
    have hT0 : (L.length : ℚ) ≠ 0 := ne_of_gt hT
    have hcast : (L.count 'H' : ℚ) + (L.count 'E' : ℚ) + (L.count 'C' : ℚ)
        = (L.length : ℚ) := by
      exact_mod_cast hcount
    refine ⟨_, rfl, ?_, ?_, ?_, ?_⟩
    · positivity
    · positivity
    · positivity
    · show (L.count 'H' : ℚ) / (L.length : ℚ) * 100
        + (L.count 'E' : ℚ) / (L.length : ℚ) * 100
        + (L.count 'C' : ℚ) / (L.length : ℚ) * 100 = 100
      field_simp
      linarith [hcast]

/-- Witness for `C4_structure_percentages` at the sequence "MAGV". -/
theorem C4_structure_percentages_witness :
    (analyze_protein (seqOf "MAGV")).map (fun r => r.helix + r.sheet + r.coil)
      = Except.ok 100
    ∧ (match predict_secondary_structure_fallback (seqOf "MAGV") with
       | SSOutcome.ok t =>
          t.helix_percentage + t.sheet_percentage + t.coil_percentage = 100
       | SSOutcome.error _ => False) := by
  obtain ⟨⟨r, hr, _, _, _, hsum⟩, ⟨t, ht, _, _, _, hsum2⟩⟩ :=
    C4_structure_percentages (seqOf "MAGV") (by decide)
  constructor
  · rw [hr]
    simp only [Except.map]
    rw [hsum]
  · rw [ht]
    exact hsum2

/-- C8: the input "FVNQHLCGSHLVEAL" yields exactly the insulin-family
hit with start 1, end 15, score 95; in general the exact-pattern pass
emits, for each registry pattern occurring in the sequence, exactly one
hit, placed at the first occurrence, with 1-based start = first-match
index + 1, end = start + pattern length − 1, and fixed score 95. -/
theorem C8_exact_pattern :
    predict_domains (seqOf "FVNQHLCGSHLVEAL")
      = [{ name := "Insulin/IGF/Relaxin", start := 1, stop := 15, score := 95,
           description := "Hormone involved in glucose regulation" }]
    ∧ ∀ (s : List Char) (info : DomainInfo), info ∈ known_domains →
        ∀ j, findSub info.pattern s = some j →
          matchesAt info.pattern s j
          ∧ (∀ k, k < j → ¬ matchesAt info.pattern s k)
          ∧ { name := info.name.getD info.key, start := j + 1,
              stop := j + info.pattern.length, score := 95,
              description := info.description } ∈ knownDomainHits s
          ∧ ((knownDomainHits s).filter
              (fun d => decide (d.name = info.name.getD info.key))).length = 1 := by
  constructor
  · decide
  · intro s info hinfo j hj
    obtain ⟨hm, hmin⟩ := findSub_some info.pattern s j hj
    refine ⟨hm, hmin, ?_, ?_⟩
    · apply List.mem_filterMap.mpr
      refine ⟨info, hinfo, ?_⟩
      rw [hj]
      rfl
    · have hinfo3 : info =
          ({ key := "insulin", name := some "Insulin/IGF/Relaxin",
             pattern := seqOf "FVNQHLCGSHLVEAL",
             description := "Hormone involved in glucose regulation" } : DomainInfo)
          ∨ info =
          ({ key := "transmembrane", name := none,
             pattern := seqOf "LLLLLLFFFF",
             description := "Membrane-spanning region" } : DomainInfo)
          ∨ info =
          ({ key := "dna_binding", name := none,
             pattern := seqOf "KKRRH",
             description := "DNA-binding motif" } : DomainInfo) := by
        simpa [known_domains] using hinfo
      rcases hinfo3 with rfl | rfl | rfl <;> dsimp only at hj ⊢
      · cases hf2 : findSub (seqOf "LLLLLLFFFF") s <;>
          cases hf3 : findSub (seqOf "KKRRH") s <;>
          simp [knownDomainHits, known_domains, List.filterMap_cons, hj, hf2, hf3]
      · cases hf1 : findSub (seqOf "FVNQHLCGSHLVEAL") s <;>
          cases hf3 : findSub (seqOf "KKRRH") s <;>
          simp [knownDomainHits, known_domains, List.filterMap_cons, hj, hf1, hf3]
      · cases hf1 : findSub (seqOf "FVNQHLCGSHLVEAL") s <;>
          cases hf2 : findSub (seqOf "LLLLLLFFFF") s <;>
          simp [knownDomainHits, known_domains, List.filterMap_cons, hj, hf1, hf2]

/-- Witness for the general part of `C8_exact_pattern`, instantiated at
the insulin registry entry and its own pattern as the sequence. -/
theorem C8_exact_pattern_witness :
    matchesAt (seqOf "FVNQHLCGSHLVEAL") (seqOf "FVNQHLCGSHLVEAL") 0
    ∧ { name := "Insulin/IGF/Relaxin", start := 1, stop := 15, score := (95 : ℚ),
        description := "Hormone involved in glucose regulation" }
      ∈ knownDomainHits (seqOf "FVNQHLCGSHLVEAL") := by
  have h := C8_exact_pattern.2 (seqOf "FVNQHLCGSHLVEAL")
    ⟨"insulin", some "Insulin/IGF/Relaxin", seqOf "FVNQHLCGSHLVEAL",
      "Hormone involved in glucose regulation"⟩
    (by decide) 0 (by decide)
  exact ⟨h.1, h.2.2.1⟩

/-- C9: in the windowed voting strategy, for every position of a
non-empty sequence the centred window has width exactly 7 (thanks to the
padding with the filler 'X', which belongs to none of the three
propensity sets), the assigned label equals the claim-worded
highest-fraction label with ties broken helix, then sheet, then coil, and
the per-position confidence equals the winning (maximal) fraction scaled
to 100. -/
theorem C9_windowed_voting (s : List Char) (j : Nat) (hj : j < s.length) :
    (windowAt s j).length = 7
    ∧ ('X' ∉ helix_prone ∧ 'X' ∉ sheet_prone ∧ 'X' ∉ coil_prone)
    ∧ (∃ r, predict_secondary_structure_fallback s = SSOutcome.ok r
        ∧ r.secondary_structure.get? j
            = some (voteSpec (windowFracs s j).1 (windowFracs s j).2.1 (windowFracs s j).2.2)
        ∧ r.confidence.get? j
            = some (max (max (windowFracs s j).1 (windowFracs s j).2.1)
                (windowFracs s j).2.2 * 100)) := by
  refine ⟨?_, by decide, ?_⟩
  · simp [windowAt, paddedX]
    omega
  · have hl : s.length ≠ 0 := by omega
    simp only [predict_secondary_structure_fallback, if_neg hl]
    refine ⟨_, rfl, ?_, ?_⟩
    · show ((List.range s.length).map (voteAt s)).get? j = _
      rw [List.get?_map, List.get?_range hj]
      simp only [Option.map_some']
      rw [voteAt_eq_spec]
    · show ((List.range s.length).map (confAt s)).get? j = _
      rw [List.get?_map, List.get?_range hj]
      simp only [Option.map_some']
      rfl

/-- Witness for `C9_windowed_voting` at position 0 of "MAGV". -/
theorem C9_windowed_voting_witness :
    (windowAt (seqOf "MAGV") 0).length = 7
    ∧ (match predict_secondary_structure_fallback (seqOf "MAGV") with
       | SSOutcome.ok r => r.secondary_structure.get? 0
            = some (voteSpec (windowFracs (seqOf "MAGV") 0).1
                (windowFracs (seqOf "MAGV") 0).2.1 (windowFracs (seqOf "MAGV") 0).2.2)
       | SSOutcome.error _ => False) := by
  obtain ⟨hlen, _, r, hr, hget, _⟩ := C9_windowed_voting (seqOf "MAGV") 0 (by decide)
  refine ⟨hlen, ?_⟩
  rw [hr]
  exact hget

